import Mathlib

/-!
Shallow embedding of the identifier-resolution core of the
get-container-id repository: the memoizing pod-ID resolver
(podid.Get), the mountinfo line scanner (podid.GetFromFile with its
UUID pattern matcher), and the two-tier container-ID strategy
(getContainerID in main.go).

Go strings are modelled as their character sequences (List Char); for
the ASCII contents these functions process, byte positions and
character positions coincide.  A Go (value, error) return pair is
modelled as a pair of the value and an Option for the error.
-/

namespace GetContainerIdRepo

/-! ### podid.Get — memoizing resolver

Source: src/podid/podid.go.  The package-level cache consists of the
two fields `cachedID string` and `hasID bool` (zero-initialised), and
the provider is the swappable `getPodIDFunc`.  A single call to `Get`
is modelled as a function of the provider's result for that call and
the cache state before the call; the model also records how many times
the provider was invoked during the call. -/

structure PodidState where
  cachedID : List Char
  hasID : Bool
deriving DecidableEq

/-- Go zero values of the package-level cache fields. -/
def podidInitState : PodidState := ⟨[], false⟩

structure PodidCallResult (ε : Type) where
  id : List Char
  err : Option ε
  state : PodidState
  providerCalls : Nat
deriving DecidableEq

/-- One call to podid.Get: on a cache hit return the cached value with
no provider invocation; otherwise invoke the provider once, and on
provider error return ("", err) leaving the cache untouched, on
success store the value, set the flag and return it. -/
def podidGet {ε : Type} (prov : List Char × Option ε) (st : PodidState) :
    PodidCallResult ε :=
  if st.hasID then ⟨st.cachedID, none, st, 0⟩
  else
    match prov with
    | (_, some e) => ⟨[], some e, st, 1⟩
    | (id, none) => ⟨id, none, ⟨id, true⟩, 1⟩

/-- A sequence of sequential calls to podid.Get, one provider result
per call.  Returns the list of (id, err) outputs, the final cache
state, and the total number of provider invocations. -/
def podidRun {ε : Type} (provs : List (List Char × Option ε)) (st : PodidState) :
    List (List Char × Option ε) × PodidState × Nat :=
  match provs with
  | [] => ([], st, 0)
  | p :: ps =>
    let r := podidGet p st
    let rest := podidRun ps r.state
    ((r.id, r.err) :: rest.1, rest.2.1, r.providerCalls + rest.2.2)

/-! ### podid.GetFromFile — mountinfo line scanner

Source: src/podid/podid.go.  The pattern
podIDRegex = /pods/([0-9a-f]\x7b8\x7d-[0-9a-f]\x7b4\x7d-[0-9a-f]\x7b4\x7d-[0-9a-f]\x7b4\x7d-[0-9a-f]\x7b12\x7d)/
is a fixed-shape pattern, so a match at a given start position is
unique; FindStringSubmatch returns the leftmost match.  The scanner
(bufio.Scanner with ScanLines, initial buffer 64KB, max token size
1MB) splits the content at newline bytes, strips one trailing carriage
return per line, and fails with a read error when a line does not fit
in the maximum buffer.  The model takes the file content directly; the
open step (and its wrapped open error) sits outside the model. -/

/-- The character class [0-9a-f] of the pattern. -/
def isHexDigitLower (c : Char) : Bool :=
  ('0' ≤ c && c ≤ '9') || ('a' ≤ c && c ≤ 'f')

/-- Consume exactly n characters from the class [0-9a-f]; return them
together with the rest of the input, or none when the input does not
start with n such characters. -/
def takeHex : Nat → List Char → Option (List Char × List Char)
  | 0, cs => some ([], cs)
  | _ + 1, [] => none
  | n + 1, c :: cs =>
    if isHexDigitLower c then
      (takeHex n cs).map fun p => (c :: p.1, p.2)
    else none

/-- Consume one expected literal character. -/
def expectChar (c : Char) : List Char → Option (List Char)
  | [] => none
  | x :: xs => if x = c then some xs else none

/-- Consume a UUID-shaped token (hex groups of lengths 8-4-4-4-12
separated by hyphens); return the consumed characters (the capture
group) and the rest of the input. -/
def takeUUID (cs : List Char) : Option (List Char × List Char) :=
  (takeHex 8 cs).bind fun g1 =>
  (expectChar '-' g1.2).bind fun r2 =>
  (takeHex 4 r2).bind fun g2 =>
  (expectChar '-' g2.2).bind fun r4 =>
  (takeHex 4 r4).bind fun g3 =>
  (expectChar '-' g3.2).bind fun r6 =>
  (takeHex 4 r6).bind fun g4 =>
  (expectChar '-' g4.2).bind fun r8 =>
  (takeHex 12 r8).map fun g5 =>
    (g1.1 ++ '-' :: g2.1 ++ '-' :: g3.1 ++ '-' :: g4.1 ++ '-' :: g5.1, g5.2)

/-- Consume a literal prefix. -/
def stripLit : List Char → List Char → Option (List Char)
  | [], cs => some cs
  | _ :: _, [] => none
  | p :: ps, c :: cs => if c = p then stripLit ps cs else none

/-- The literal "/pods/" of the pattern. -/
def litPods : List Char := ['/', 'p', 'o', 'd', 's', '/']

/-- Match the pattern at the start of the input; the result is the
capture group (the bare UUID). -/
def matchPodAt (cs : List Char) : Option (List Char) :=
  (stripLit litPods cs).bind fun r1 =>
  (takeUUID r1).bind fun u =>
  (expectChar '/' u.2).map fun _ => u.1

/-- FindStringSubmatch of podIDRegex on one line: the capture of the
leftmost match, or none when no position of the line matches. -/
def findPod : List Char → Option (List Char)
  | [] => none
  | c :: cs =>
    match matchPodAt (c :: cs) with
    | some u => some u
    | none => findPod cs

/-- ScanLines dropCR: delete one trailing carriage return. -/
def dropCR (l : List Char) : List Char :=
  if l.getLast? = some '\r' then l.dropLast else l

/-- Split file content at newline bytes, as bufio.ScanLines tokenises
it: the newline is not part of the token, a final chunk without a
trailing newline is still a token, and empty content yields no token.
Carriage returns are kept here; the per-line dropCR is applied by the
scan loop. -/
def splitLinesAux : List Char → List Char → List (List Char)
  | [], acc => if acc = [] then [] else [acc.reverse]
  | c :: cs, acc =>
    if c = '\n' then acc.reverse :: splitLinesAux cs []
    else splitLinesAux cs (c :: acc)

def splitLinesCh (cs : List Char) : List (List Char) := splitLinesAux cs []

/-- bufio.Scanner max token size as set by scanner.Buffer: 1024*1024. -/
def maxTokenSize : Nat := 1024 * 1024

/-- The error taxonomy of GetFromFile: the wrapped open error, the
wrapped scanner read error (a line exceeding the buffer cap), and the
distinguished ErrPodIDNotFound. -/
inductive PodidError where
  | openFailed
  | readFailed
  | notFound
deriving DecidableEq

/-- The scan loop of GetFromFile over the tokenised lines: a line that
cannot fit in the maximum buffer stops the scan with a read error;
otherwise the first line the pattern matches returns its capture; a
completed scan with no match returns ErrPodIDNotFound. -/
def scanPod : List (List Char) → List Char × Option PodidError
  | [] => ([], some PodidError.notFound)
  | l :: ls =>
    if maxTokenSize ≤ l.length then ([], some PodidError.readFailed)
    else
      match findPod (dropCR l) with
      | some u => (u, none)
      | none => scanPod ls

/-- podid.GetFromFile on the content of an already-opened file. -/
def GetFromFile (content : List Char) : List Char × Option PodidError :=
  scanPod (splitLinesCh content)

/-! ### getContainerID — two-tier container strategy

Source: src/main.go.  getContainerID reads /proc/self/cpuset; on a
read error it propagates that error.  When the trimmed content is not
the root sentinel "/" it splits the content on '/' and returns the
last element with newlines removed (the replacer), without invoking
the fallback.  Otherwise it calls containerid.Get, keeps only the id,
and returns ErrContainerIDNotFound when the id is empty and (id, nil)
when it is not; the error value returned by containerid.Get is never
examined.  The model takes the outcome of the cpuset read and the
result pair of containerid.Get as inputs and records whether the
fallback was invoked. -/

/-- strings.TrimSpace cutset as it applies to the ASCII contents
involved here (the full Go predicate is unicode.IsSpace). -/
def isSpaceGo (c : Char) : Bool :=
  c = ' ' || c = '\t' || c = '\n' || c = '\x0b' || c = '\x0c' || c = '\r'

def trimSpaceGo (cs : List Char) : List Char :=
  ((cs.dropWhile isSpaceGo).reverse.dropWhile isSpaceGo).reverse

/-- strings.Split with a one-character separator: the result always
has at least one element and empty segments are kept. -/
def splitOnChar (sep : Char) : List Char → List (List Char)
  | [] => [[]]
  | c :: cs =>
    match splitOnChar sep cs with
    | [] => [[]]
    | s :: rest => if c = sep then [] :: s :: rest else (c :: s) :: rest

/-- The package-level replacer strings.NewReplacer removing newlines. -/
def removeNewlines (cs : List Char) : List Char := cs.filter (· ≠ '\n')

/-- Errors getContainerID can return: the cpuset read error propagated
unchanged, or ErrContainerIDNotFound. -/
inductive MainErr (ε : Type) where
  | fromRead (e : ε)
  | containerIDNotFound
deriving DecidableEq

structure ContainerIDResult (ε : Type) where
  id : List Char
  err : Option (MainErr ε)
  fallbackInvoked : Bool
deriving DecidableEq

def getContainerID {ε : Type} (readRes : Except ε (List Char))
    (cidRes : List Char × Option ε) : ContainerIDResult ε :=
  match readRes with
  | Except.error e => ⟨[], some (MainErr.fromRead e), false⟩
  | Except.ok cpuset =>
    if trimSpaceGo cpuset ≠ ['/'] then
      ⟨removeNewlines ((splitOnChar '/' cpuset).getLastD []), none, false⟩
    else
      if cidRes.1 = [] then ⟨[], some MainErr.containerIDNotFound, true⟩
      else ⟨cidRes.1, none, true⟩

/-- Modelled from the spec's words for the refinement comparison in
C4: the last non-empty segment of the content split on '/'. -/
def lastNonEmptySegmentSpec (cs : List Char) : List Char :=
  ((splitOnChar '/' cs).filter (· ≠ [])).getLastD []

/-- The pattern fragment as it appears in a line: the literal "/pods/",
the UUID text, the closing slash, then the remainder of the line. -/
def podFragment (u b : List Char) : List Char := litPods ++ u ++ '/' :: b

/-- The suffix "etc-hosts" that follows the UUID's closing slash in a
kubelet etc-hosts mount entry. -/
def etcHosts : List Char := ['e', 't', 'c', '-', 'h', 'o', 's', 't', 's']

/-- A sample UUID used to exercise the long-line behaviour. -/
def sampleUUID : List Char :=
  "0f8fad5b-d9cb-469f-a165-70867728950e".toList

/-! ### Helper lemmas -/

theorem podidGet_hasID {ε : Type} (p : List Char × Option ε) (st : PodidState)
    (h : st.hasID = true) : podidGet p st = ⟨st.cachedID, none, st, 0⟩ := by
  simp [podidGet, h]

theorem podidRun_hasID {ε : Type} (ps : List (List Char × Option ε)) (st : PodidState)
    (h : st.hasID = true) :
    podidRun ps st = (ps.map fun _ => (st.cachedID, (none : Option ε)), st, 0) := by
  induction ps with
  | nil => simp [podidRun]
  | cons p ps ih =>
    simp [podidRun, podidGet_hasID p st h, ih]

theorem takeHex_spec (n : Nat) (cs t h r : List Char)
    (hh : takeHex n cs = some (h, r)) :
    takeHex n (cs ++ t) = some (h, r ++ t) ∧ h.length = n := by
  induction n generalizing cs h r with
  | zero =>
    simp only [takeHex, Option.some.injEq, Prod.mk.injEq] at hh
    obtain ⟨rfl, rfl⟩ := hh
    simp [takeHex]
  | succ n ih =>
    cases cs with
    | nil => simp [takeHex] at hh
    | cons c cs' =>
      rw [takeHex] at hh
      by_cases hc : isHexDigitLower c
      · rw [if_pos hc, Option.map_eq_some'] at hh
        obtain ⟨⟨h', r'⟩, hp, hval⟩ := hh
        simp only [Prod.mk.injEq] at hval
        obtain ⟨hval1, hval2⟩ := hval
        subst hval1
        subst hval2
        obtain ⟨ha, hl⟩ := ih cs' h' r' hp
        rw [List.cons_append, takeHex, if_pos hc, ha]
        simp [hl]
      · rw [if_neg hc] at hh
        exact absurd hh (by simp)

theorem expectChar_append (c : Char) (cs t r : List Char)
    (hh : expectChar c cs = some r) : expectChar c (cs ++ t) = some (r ++ t) := by
  cases cs with
  | nil => simp [expectChar] at hh
  | cons x xs =>
    rw [expectChar] at hh
    by_cases hx : x = c
    · rw [if_pos hx] at hh
      rw [List.cons_append, expectChar, if_pos hx]
      simp at hh
      rw [hh]
    · rw [if_neg hx] at hh
      exact absurd hh (by simp)

theorem takeUUID_spec (cs t v r : List Char)
    (hh : takeUUID cs = some (v, r)) :
    takeUUID (cs ++ t) = some (v, r ++ t) ∧ v.length = 36 := by
  rw [takeUUID] at hh
  rcases h1 : takeHex 8 cs with _ | ⟨g1, r1⟩ <;> rw [h1] at hh <;> simp only [Option.none_bind, Option.some_bind] at hh
  case none => exact absurd hh (by simp)
  rcases h2 : expectChar '-' r1 with _ | r2 <;> rw [h2] at hh <;> simp only [Option.none_bind, Option.some_bind] at hh
  case none => exact absurd hh (by simp)
  rcases h3 : takeHex 4 r2 with _ | ⟨g2, r3⟩ <;> rw [h3] at hh <;> simp only [Option.none_bind, Option.some_bind] at hh
  case none => exact absurd hh (by simp)
  rcases h4 : expectChar '-' r3 with _ | r4 <;> rw [h4] at hh <;> simp only [Option.none_bind, Option.some_bind] at hh
  case none => exact absurd hh (by simp)
  rcases h5 : takeHex 4 r4 with _ | ⟨g3, r5⟩ <;> rw [h5] at hh <;> simp only [Option.none_bind, Option.some_bind] at hh
  case none => exact absurd hh (by simp)
  rcases h6 : expectChar '-' r5 with _ | r6 <;> rw [h6] at hh <;> simp only [Option.none_bind, Option.some_bind] at hh
  case none => exact absurd hh (by simp)
  rcases h7 : takeHex 4 r6 with _ | ⟨g4, r7⟩ <;> rw [h7] at hh <;> simp only [Option.none_bind, Option.some_bind] at hh
  case none => exact absurd hh (by simp)
  rcases h8 : expectChar '-' r7 with _ | r8 <;> rw [h8] at hh <;> simp only [Option.none_bind, Option.some_bind] at hh
  case none => exact absurd hh (by simp)
  rcases h9 : takeHex 12 r8 with _ | ⟨g5, r9⟩ <;> rw [h9] at hh <;> simp only [Option.map_none', Option.map_some'] at hh
  case none => exact absurd hh (by simp)
  simp only [Option.some.injEq, Prod.mk.injEq] at hh
  obtain ⟨hv, hr⟩ := hh
  subst hv
  subst hr
  constructor
  · rw [takeUUID, (takeHex_spec 8 cs t g1 r1 h1).1]
    simp only [Option.some_bind]
    rw [expectChar_append '-' r1 t r2 h2]
    simp only [Option.some_bind]
    rw [(takeHex_spec 4 r2 t g2 r3 h3).1]
    simp only [Option.some_bind]
    rw [expectChar_append '-' r3 t r4 h4]
    simp only [Option.some_bind]
    rw [(takeHex_spec 4 r4 t g3 r5 h5).1]
    simp only [Option.some_bind]
    rw [expectChar_append '-' r5 t r6 h6]
    simp only [Option.some_bind]
    rw [(takeHex_spec 4 r6 t g4 r7 h7).1]
    simp only [Option.some_bind]
    rw [expectChar_append '-' r7 t r8 h8]
    simp only [Option.some_bind]
    rw [(takeHex_spec 12 r8 t g5 r9 h9).1]
    simp
  · have l1 := (takeHex_spec 8 cs [] g1 r1 h1).2
    have l2 := (takeHex_spec 4 r2 [] g2 r3 h3).2
    have l3 := (takeHex_spec 4 r4 [] g3 r5 h5).2
    have l4 := (takeHex_spec 4 r6 [] g4 r7 h7).2
    have l5 := (takeHex_spec 12 r8 [] g5 r9 h9).2
    simp [List.length_append, l1, l2, l3, l4, l5]

theorem stripLit_self (p cs : List Char) : stripLit p (p ++ cs) = some cs := by
  induction p with
  | nil => simp [stripLit]
  | cons c p' ih => simp [stripLit, ih]

theorem matchPodAt_fragment (u b : List Char) (hu : takeUUID u = some (u, [])) :
    matchPodAt (podFragment u b) = some u := by
  rw [matchPodAt, podFragment, List.append_assoc, stripLit_self]
  simp only [Option.some_bind]
  have h1 : takeUUID (u ++ '/' :: b) = some (u, '/' :: b) := by
    simpa using (takeUUID_spec u ('/' :: b) u [] hu).1
  rw [h1]
  simp [expectChar]

theorem matchPodAt_nil : matchPodAt [] = none := by
  simp [matchPodAt, stripLit, litPods]

theorem findPod_of_match (k : Nat) (cs u : List Char)
    (hnm : ∀ j, j < k → matchPodAt (cs.drop j) = none)
    (hk : matchPodAt (cs.drop k) = some u) : findPod cs = some u := by
  induction k generalizing cs with
  | zero =>
    rw [List.drop_zero] at hk
    cases cs with
    | nil => rw [matchPodAt_nil] at hk; exact absurd hk (by simp)
    | cons c cs' => rw [findPod, hk]
  | succ k ih =>
    cases cs with
    | nil =>
      rw [List.drop_nil, matchPodAt_nil] at hk
      exact absurd hk (by simp)
    | cons c cs' =>
      have h0 : matchPodAt (c :: cs') = none := by
        simpa using hnm 0 (Nat.succ_pos k)
      rw [findPod, h0]
      exact ih cs' (fun j hj => by simpa using hnm (j + 1) (Nat.succ_lt_succ hj))
        (by simpa using hk)

theorem findPod_fragment (a u b : List Char) (hu : takeUUID u = some (u, []))
    (hnm : ∀ j, j < a.length → matchPodAt ((a ++ podFragment u b).drop j) = none) :
    findPod (a ++ podFragment u b) = some u := by
  refine findPod_of_match a.length (a ++ podFragment u b) u hnm ?_
  rw [List.drop_left]
  exact matchPodAt_fragment u b hu

theorem scanPod_match (l : List Char) (ls : List (List Char)) (u : List Char)
    (hcap : l.length < maxTokenSize) (hm : findPod (dropCR l) = some u) :
    scanPod (l :: ls) = (u, none) := by
  rw [scanPod, if_neg (by omega), hm]

theorem scanPod_skip (pre ls : List (List Char))
    (hpre : ∀ l ∈ pre, l.length < maxTokenSize ∧ findPod (dropCR l) = none) :
    scanPod (pre ++ ls) = scanPod ls := by
  induction pre with
  | nil => simp
  | cons l pre' ih =>
    obtain ⟨hcap, hnm⟩ := hpre l (List.mem_cons_self l pre')
    rw [List.cons_append, scanPod, if_neg (by omega), hnm]
    exact ih fun l' hl' => hpre l' (List.mem_cons_of_mem l hl')

theorem splitLinesAux_no_newline (cs : List Char) (acc : List Char)
    (hnl : '\n' ∉ cs) (hne : cs ≠ [] ∨ acc ≠ []) :
    splitLinesAux cs acc = [acc.reverse ++ cs] := by
  induction cs generalizing acc with
  | nil =>
    rcases hne with h | h
    · exact absurd rfl h
    · simp [splitLinesAux, h]
  | cons c cs' ih =>
    have hc : ¬(c = '\n') := fun h => hnl (h ▸ List.mem_cons_self c cs')
    rw [splitLinesAux, if_neg hc]
    rw [ih (c :: acc) (fun h => hnl (List.mem_cons_of_mem c h)) (Or.inr (by simp))]
    simp

theorem splitLines_no_newline (cs : List Char) (hne : cs ≠ [])
    (hnl : '\n' ∉ cs) : splitLinesCh cs = [cs] := by
  rw [splitLinesCh, splitLinesAux_no_newline cs [] hnl (Or.inl hne)]
  simp

theorem getLast_replicate_succ (n : Nat) (c : Char) :
    (List.replicate (n + 1) c).getLast? = some c := by
  induction n with
  | zero => rfl
  | succ n ih => rw [List.replicate_succ, List.getLast?_cons, ih]; rfl

theorem dropCR_no_cr (l : List Char) (h : l.getLast? ≠ some '\r') :
    dropCR l = l := by
  rw [dropCR, if_neg h]

/-! ### Claim theorems -/

/-- Claim C1: for every injected provider, if a first call to podid.Get
on the cold cache succeeds with identifier v, a second sequential call
returns exactly v with no error and does not invoke the provider: the
provider is invoked exactly once over the two calls, and the cache-hit
path returns the stored value. -/
theorem podid_get_caches_success {ε : Type} (p1 p2 : List Char × Option ε)
    (h : (podidGet p1 podidInitState).err = none) :
    (podidGet p1 podidInitState).providerCalls = 1 ∧
    podidGet p2 (podidGet p1 podidInitState).state =
      ⟨(podidGet p1 podidInitState).id, none, (podidGet p1 podidInitState).state, 0⟩ ∧
    (podidGet p1 podidInitState).state.cachedID = (podidGet p1 podidInitState).id := by
  obtain ⟨s, oe⟩ := p1
  cases oe with
  | some e => simp [podidGet, podidInitState] at h
  | none => refine ⟨?_, ?_, ?_⟩ <;> simp [podidGet, podidInitState]

theorem podid_get_caches_success_witness :
    (podidGet ((['a'], none) : List Char × Option Nat) podidInitState).providerCalls = 1 ∧
    podidGet (([], some 0) : List Char × Option Nat)
        (podidGet ((['a'], none) : List Char × Option Nat) podidInitState).state =
      ⟨(podidGet ((['a'], none) : List Char × Option Nat) podidInitState).id, none,
        (podidGet ((['a'], none) : List Char × Option Nat) podidInitState).state, 0⟩ ∧
    (podidGet ((['a'], none) : List Char × Option Nat) podidInitState).state.cachedID =
      (podidGet ((['a'], none) : List Char × Option Nat) podidInitState).id :=
  podid_get_caches_success (['a'], none) ([], some 0) (by decide)

/-- Claim C2: on a cold cache, a provider failure with error e makes
podid.Get return the empty identifier together with e unchanged and
leaves both cache fields unmodified; the very next call invokes the
provider again, and a success on that call is cached for every
subsequent call. -/
theorem podid_failure_not_cached {ε : Type} (e : ε) (s v : List Char)
    (ps : List (List Char × Option ε)) :
    podidGet (s, some e) podidInitState = ⟨[], some e, podidInitState, 1⟩ ∧
    podidGet ((v, none) : List Char × Option ε)
        (podidGet (s, some e) podidInitState).state = ⟨v, none, ⟨v, true⟩, 1⟩ ∧
    podidRun ps (⟨v, true⟩ : PodidState) =
      (ps.map fun _ => (v, (none : Option ε)), ⟨v, true⟩, 0) :=
  ⟨by simp [podidGet, podidInitState], by simp [podidGet, podidInitState],
    podidRun_hasID ps ⟨v, true⟩ rfl⟩

/-- Claim C8: the cache state is monotone: it starts absent at process
start, and once the presence flag is true the state never changes
under any further sequence of calls — every subsequent Get returns the
identical cached value with no provider invocation. -/
theorem podid_cache_monotone {ε : Type} (ps : List (List Char × Option ε))
    (st : PodidState) (h : st.hasID = true) :
    podidInitState.hasID = false ∧
    podidRun ps st = (ps.map fun _ => (st.cachedID, (none : Option ε)), st, 0) :=
  ⟨rfl, podidRun_hasID ps st h⟩

theorem podid_cache_monotone_witness :
    podidInitState.hasID = false ∧
    podidRun ([(['x'], some 3)] : List (List Char × Option Nat)) ⟨['v'], true⟩ =
      (([(['x'], some 3)] : List (List Char × Option Nat)).map
        fun _ => (['v'], (none : Option Nat)), ⟨['v'], true⟩, 0) :=
  podid_cache_monotone [(['x'], some 3)] ⟨['v'], true⟩ rfl

/-- Claim C10: podid.Get performs no validation of the provider's
result: any string s returned with a nil error — the empty string
included — is stored, the presence flag is set, and (s, nil) is
returned and then served to every subsequent call with no further
provider invocation. -/
theorem podid_no_validation {ε : Type} (s : List Char)
    (ps : List (List Char × Option ε)) :
    podidGet ((s, none) : List Char × Option ε) podidInitState =
      ⟨s, none, ⟨s, true⟩, 1⟩ ∧
    podidRun ps (⟨s, true⟩ : PodidState) =
      (ps.map fun _ => (s, (none : Option ε)), ⟨s, true⟩, 0) :=
  ⟨by simp [podidGet, podidInitState], podidRun_hasID ps ⟨s, true⟩ rfl⟩

/-- Claim C5: a file containing a line with the fragment
/pods/UUID/etc-hosts (lowercase 8-4-4-4-12 hex groups), reached
without a prior match or an over-long line, makes GetFromFile return
exactly the bare 36-character UUID with a nil error. -/
theorem getFromFile_etc_hosts (content : List Char) (pre post : List (List Char))
    (a u rest : List Char)
    (hsplit : splitLinesCh content =
      pre ++ (a ++ podFragment u (etcHosts ++ rest)) :: post)
    (hpre : ∀ l ∈ pre, l.length < maxTokenSize ∧ findPod (dropCR l) = none)
    (hu : takeUUID u = some (u, []))
    (hcr : dropCR (a ++ podFragment u (etcHosts ++ rest)) =
      a ++ podFragment u (etcHosts ++ rest))
    (hcap : (a ++ podFragment u (etcHosts ++ rest)).length < maxTokenSize)
    (hnm : ∀ j, j < a.length →
      matchPodAt ((a ++ podFragment u (etcHosts ++ rest)).drop j) = none) :
    GetFromFile content = (u, none) ∧ u.length = 36 := by
  constructor
  · rw [GetFromFile, hsplit, scanPod_skip pre _ hpre]
    exact scanPod_match _ post u hcap
      (by rw [hcr]; exact findPod_fragment a u _ hu hnm)
  · exact (takeUUID_spec u [] u [] hu).2

theorem getFromFile_etc_hosts_witness :
    GetFromFile ("overlay / rw\n29 /var/lib/kubelet/pods/036da4f7-d553-4eb6-9802-90f81041a412/etc-hosts rw\nzz".toList) =
      ("036da4f7-d553-4eb6-9802-90f81041a412".toList, none) ∧
    ("036da4f7-d553-4eb6-9802-90f81041a412".toList).length = 36 :=
  getFromFile_etc_hosts
    ("overlay / rw\n29 /var/lib/kubelet/pods/036da4f7-d553-4eb6-9802-90f81041a412/etc-hosts rw\nzz".toList)
    ["overlay / rw".toList] ["zz".toList]
    ("29 /var/lib/kubelet".toList) ("036da4f7-d553-4eb6-9802-90f81041a412".toList)
    (" rw".toList)
    (by decide) (by decide) (by decide) (by decide) (by decide) (by decide)

/-- Claim C6: a file all of whose lines scan without error and contain
no match makes GetFromFile return the empty identifier together with
the distinguished ErrPodIDNotFound, which is distinct from the open
and read errors. -/
theorem getFromFile_not_found (content : List Char)
    (h : ∀ l ∈ splitLinesCh content,
      l.length < maxTokenSize ∧ findPod (dropCR l) = none) :
    GetFromFile content = ([], some PodidError.notFound) ∧
    PodidError.notFound ≠ PodidError.openFailed ∧
    PodidError.notFound ≠ PodidError.readFailed := by
  refine ⟨?_, by decide, by decide⟩
  rw [GetFromFile]
  simpa using scanPod_skip (splitLinesCh content) [] h

theorem getFromFile_not_found_witness :
    GetFromFile ("15 29 0:40 / /var/lib/containers/abc rw - tmpfs tmpfs rw\n".toList) =
      ([], some PodidError.notFound) ∧
    PodidError.notFound ≠ PodidError.openFailed ∧
    PodidError.notFound ≠ PodidError.readFailed :=
  getFromFile_not_found
    ("15 29 0:40 / /var/lib/containers/abc rw - tmpfs tmpfs rw\n".toList) (by decide)

/-- Claim C7: a file made of a single line longer than 70KB but below
the 1MB buffer cap, containing the pod pattern anywhere within it,
still yields the correct captured UUID with no error. -/
theorem getFromFile_long_line (content a u b : List Char)
    (hsplit : splitLinesCh content = [a ++ podFragment u b])
    (hu : takeUUID u = some (u, []))
    (hcr : dropCR (a ++ podFragment u b) = a ++ podFragment u b)
    (hlong : 70 * 1024 < (a ++ podFragment u b).length)
    (hcap : (a ++ podFragment u b).length < maxTokenSize)
    (hnm : ∀ j, j < a.length → matchPodAt ((a ++ podFragment u b).drop j) = none) :
    GetFromFile content = (u, none) := by
  rw [GetFromFile, hsplit]
  exact scanPod_match _ [] u hcap
    (by rw [hcr]; exact findPod_fragment a u b hu hnm)

theorem getFromFile_long_line_witness :
    GetFromFile (podFragment sampleUUID (List.replicate 80000 'x')) =
      (sampleUUID, none) := by
  have h36 : sampleUUID.length = 36 := by decide
  have hlen : (podFragment sampleUUID (List.replicate 80000 'x')).length = 80043 := by
    rw [podFragment, List.length_append, List.length_append, List.length_cons,
      List.length_replicate, h36, show litPods.length = 6 from by decide]
  have hrep : (List.replicate 80000 'x') ≠ [] := by
    rw [show (80000 : Nat) = 79999 + 1 from by norm_num, List.replicate_succ]
    exact List.cons_ne_nil _ _
  refine getFromFile_long_line _ [] sampleUUID (List.replicate 80000 'x')
    ?hsplit (by decide) ?hcr (by rw [List.nil_append, hlen]; norm_num)
    (by rw [List.nil_append, hlen]; norm_num [maxTokenSize])
    (fun j hj => absurd hj (Nat.not_lt_zero j))
  case hsplit =>
    rw [List.nil_append]
    refine splitLines_no_newline _ ?_ ?_
    · simp only [podFragment, litPods, List.cons_append]
      exact List.cons_ne_nil _ _
    · intro hmem
      rw [podFragment] at hmem
      simp only [List.mem_append, List.mem_cons, List.mem_replicate] at hmem
      revert hmem
      decide
  case hcr =>
    rw [List.nil_append]
    refine dropCR_no_cr _ ?_
    have hlast : (List.replicate 80000 'x').getLast? = some 'x' := by
      have h := getLast_replicate_succ 79999 'x'
      norm_num at h
      exact h
    rw [podFragment, List.append_assoc,
      List.getLast?_append_of_ne_nil _
        (List.append_ne_nil_of_right_ne_nil _ (List.cons_ne_nil _ _)),
      List.getLast?_append_of_ne_nil _ (List.cons_ne_nil _ _),
      show ('/' :: List.replicate 80000 'x') = ['/'] ++ List.replicate 80000 'x'
        from rfl,
      List.getLast?_append_of_ne_nil _ hrep, hlast]
    decide

/-- Claim C9: scanning is short-circuiting and ordered: with several
matching lines the capture of the earliest matching line is returned
and scanning stops there, regardless of what follows; within a line
the capture is the leftmost match. -/
theorem scanPod_first_match (pre post : List (List Char)) (a u b : List Char)
    (hpre : ∀ l ∈ pre, l.length < maxTokenSize ∧ findPod (dropCR l) = none)
    (hu : takeUUID u = some (u, []))
    (hcr : dropCR (a ++ podFragment u b) = a ++ podFragment u b)
    (hcap : (a ++ podFragment u b).length < maxTokenSize)
    (hnm : ∀ j, j < a.length → matchPodAt ((a ++ podFragment u b).drop j) = none) :
    findPod (dropCR (a ++ podFragment u b)) = some u ∧
    scanPod (pre ++ (a ++ podFragment u b) :: post) = (u, none) := by
  have hf : findPod (a ++ podFragment u b) = some u := findPod_fragment a u b hu hnm
  refine ⟨by rw [hcr]; exact hf, ?_⟩
  rw [scanPod_skip pre _ hpre]
  exact scanPod_match _ post u hcap (by rw [hcr]; exact hf)

theorem scanPod_first_match_witness :
    findPod (dropCR ("q /pods/036da4f7-d553-4eb6-9802-90f81041a412/ x /pods/ffffffff-ffff-ffff-ffff-ffffffffffff/ y".toList)) =
      some ("036da4f7-d553-4eb6-9802-90f81041a412".toList) ∧
    scanPod (["no match line".toList] ++
        ("q /pods/036da4f7-d553-4eb6-9802-90f81041a412/ x /pods/ffffffff-ffff-ffff-ffff-ffffffffffff/ y".toList) ::
        ["/pods/00000000-0000-0000-0000-000000000000/etc-hosts".toList]) =
      (("036da4f7-d553-4eb6-9802-90f81041a412".toList), none) := by
  have h := scanPod_first_match ["no match line".toList]
    ["/pods/00000000-0000-0000-0000-000000000000/etc-hosts".toList]
    ("q ".toList) ("036da4f7-d553-4eb6-9802-90f81041a412".toList)
    (" x /pods/ffffffff-ffff-ffff-ffff-ffffffffffff/ y".toList)
    (by decide) (by decide) (by decide) (by decide) (by decide)
  simpa using h

/-- Claim C3 counterexample: getContainerID does not surface the
error of the cgroup-v2 fallback resolver.  With root cpuset content
and a fallback result carrying error 0: when the fallback id is
non-empty the error is dropped entirely (nil error returned), and when
the id is empty the returned error is ErrContainerIDNotFound, not the
fallback error or a wrapping of it. -/
theorem getContainerID_drops_fallback_error :
    (getContainerID (Except.ok ['/', '\n']) (['a'], some (0 : Nat))).err = none ∧
    (getContainerID (Except.ok ['/', '\n'])
      (([] : List Char), some (0 : Nat))).err =
      some MainErr.containerIDNotFound ∧
    (MainErr.containerIDNotFound : MainErr Nat) ≠ MainErr.fromRead 0 := by
  refine ⟨by decide, by decide, by decide⟩

/-- Claim C3 amended: getContainerID propagates the cpuset read error
unchanged, but the error of the cgroup-v2 fallback resolver is
discarded: on root cpuset content the result depends only on the
fallback id — ErrContainerIDNotFound when it is empty, (id, nil)
when it is not — regardless of the fallback's error value. -/
theorem getContainerID_error_policy {ε : Type} (e : ε) (cid : List Char × Option ε)
    (cpuset id : List Char) (er er' : Option ε)
    (hroot : trimSpaceGo cpuset = ['/']) :
    getContainerID (Except.error e) cid = ⟨[], some (MainErr.fromRead e), false⟩ ∧
    getContainerID (Except.ok cpuset) (id, er) =
      getContainerID (Except.ok cpuset) (id, er') ∧
    getContainerID (Except.ok cpuset) (([] : List Char), er) =
      ⟨[], some MainErr.containerIDNotFound, true⟩ ∧
    (id ≠ [] → getContainerID (Except.ok cpuset) (id, er) = ⟨id, none, true⟩) := by
  refine ⟨rfl, ?_, ?_, ?_⟩
  · simp [getContainerID, hroot]
  · simp [getContainerID, hroot]
  · intro hid
    simp [getContainerID, hroot, hid]

theorem getContainerID_error_policy_witness :
    getContainerID (Except.error (5 : Nat)) (['a'], none) =
      ⟨[], some (MainErr.fromRead 5), false⟩ ∧
    getContainerID (Except.ok ['/', '\n']) (['a'], some (5 : Nat)) =
      getContainerID (Except.ok ['/', '\n']) (['a'], (none : Option Nat)) ∧
    getContainerID (Except.ok ['/', '\n']) (([] : List Char), some (5 : Nat)) =
      ⟨[], some MainErr.containerIDNotFound, true⟩ ∧
    (['a'] ≠ ([] : List Char) →
      getContainerID (Except.ok ['/', '\n']) (['a'], some (5 : Nat)) =
        ⟨['a'], none, true⟩) :=
  getContainerID_error_policy 5 (['a'], none) ['/', '\n'] ['a']
    (some 5) none (by decide)

/-- Claim C4 counterexample: for cpuset content "a/b/" (whose trimmed
form is not the root sentinel), getContainerID returns the empty
string — the last segment of the split is empty — while the last
non-empty segment of the spec's wording is "b". -/
theorem getContainerID_last_segment_empty :
    trimSpaceGo ['a', '/', 'b', '/'] ≠ ['/'] ∧
    getContainerID (ε := Unit) (Except.ok ['a', '/', 'b', '/']) ([], none) =
      ⟨[], none, false⟩ ∧
    removeNewlines (lastNonEmptySegmentSpec ['a', '/', 'b', '/']) = ['b'] ∧
    ([] : List Char) ≠ ['b'] := by
  refine ⟨by decide, by decide, by decide, by decide⟩

/-- Claim C4 amended: for every cpuset content whose trimmed form is
not the root sentinel, getContainerID returns, with no error, the last
segment of the content split on '/' (which may be empty) with embedded
newlines stripped, and does so without invoking the mount-table
fallback; the result is independent of the fallback input. -/
theorem getContainerID_v1_branch {ε : Type} (c : List Char)
    (cid cid' : List Char × Option ε) (h : trimSpaceGo c ≠ ['/']) :
    getContainerID (Except.ok c) cid =
      ⟨removeNewlines ((splitOnChar '/' c).getLastD []), none, false⟩ ∧
    getContainerID (Except.ok c) cid = getContainerID (Except.ok c) cid' := by
  constructor <;> simp [getContainerID, h]

theorem getContainerID_v1_branch_witness :
    getContainerID (Except.ok ("/docker/abc\n".toList)) (['q'], some (1 : Nat)) =
      ⟨removeNewlines ((splitOnChar '/' ("/docker/abc\n".toList)).getLastD []),
        none, false⟩ ∧
    getContainerID (Except.ok ("/docker/abc\n".toList)) (['q'], some (1 : Nat)) =
      getContainerID (Except.ok ("/docker/abc\n".toList)) ([], (none : Option Nat)) :=
  getContainerID_v1_branch ("/docker/abc\n".toList) (['q'], some 1) ([], none)
    (by decide)

end GetContainerIdRepo
